import Mathlib

/-!
Verification of the multi-region Prometheus request router.

A shallow embedding of `src/prometheus_mcp_server/server.py`: region
configuration resolution, authentication selection, the outbound request
contract, response classification, the per-region metrics cache, and the
operation handlers (`list_metrics`, `get_metric_metadata`, `health_check`).

Python strings are modelled as Lean `String`; `str.lower()` is modelled with
`Char.toLower`, which performs exactly the ASCII lowering (the region names and
header keys in play are ASCII).  Python dicts are modelled as insertion-ordered
association lists with `dictSet`/`dictUpdate` mirroring `d[k] = v` and
`d.update(e)`.  The network is abstracted by a `TransportOutcome` oracle that
says what `requests.get` would produce; every function that may issue a request
also returns the list of requests it issued, so that "how many network calls
happened" is part of the embedding.  Exceptions are modelled by `Except PyExc`,
with the class hierarchy of the `requests` library (version ≥ 2.27, where
`Response.json()` raises `requests.exceptions.JSONDecodeError`, a subclass of
both `RequestException` and `json.JSONDecodeError`) reflected in the Boolean
class predicates on `PyExc`.
-/

/-! ## Python string primitives -/

/-- Python `s.lower()` restricted to ASCII: lower-case each character. -/
def pyLower (s : String) : String :=
  ⟨s.data.map Char.toLower⟩

/-- Is `needle` a prefix of `hay` (character lists)? -/
def isPrefixList : List Char → List Char → Bool
  | [], _ => true
  | _ :: _, [] => false
  | a :: as, b :: bs => a = b && isPrefixList as bs

/-- Does `hay` contain `needle` as a contiguous sublist? -/
def hasSubList (needle : List Char) : List Char → Bool
  | [] => isPrefixList needle []
  | b :: t => isPrefixList needle (b :: t) || hasSubList needle t

/-- Python `needle in hay` for strings: substring containment. -/
def pyInStr (needle hay : String) : Bool :=
  hasSubList needle.data hay.data

/-- Python `s.rstrip(t)` for the single character `/`: drop all trailing slashes. -/
def pyRstripSlash (s : String) : String :=
  ⟨(s.data.reverse.dropWhile (fun c => c = '/')).reverse⟩

/-- Truthiness of a Python `Optional[str]`: `None` and `""` are falsy. -/
def strTruthy : Option String → Bool
  | none => false
  | some s => !(s == "")

/-- Extract the string of an `Optional[str]`, defaulting to the empty string. -/
def optStr : Option String → String
  | none => ""
  | some s => s

/-- Python `<=` on strings: lexicographic comparison by code point. -/
def charListLe : List Char → List Char → Bool
  | [], _ => true
  | _ :: _, [] => false
  | a :: as, b :: bs => if a = b then charListLe as bs else decide (a < b)

/-- Python `s <= t` on strings. -/
def pyStrLe (s t : String) : Bool :=
  charListLe s.data t.data

/-- Python `sorted(keys)` on strings: stable sort ascending by `pyStrLe`. -/
def sortStrings (l : List String) : List String :=
  List.insertionSort (fun a b => pyStrLe a b = true) l

/-! ## Python dict operations (insertion-ordered association lists) -/

/-- Python `d[k] = v`: replace the entry in place if the key is present,
otherwise append it. -/
def dictSet (d : List (String × String)) (k v : String) : List (String × String) :=
  if d.any (fun p => p.1 = k) then
    d.map (fun p => if p.1 = k then (k, v) else p)
  else d ++ [(k, v)]

/-- Python `d.update(e)`: set each entry of `e` in `d`, in order. -/
def dictUpdate (d e : List (String × String)) : List (String × String) :=
  e.foldl (fun acc p => dictSet acc p.1 p.2) d

/-- The value of the last entry of `l` whose key is `k`, if any.  For a Python
dict (unique keys) this is the one binding of `k`. -/
def lookupLast (k : String) : List (String × String) → Option String
  | [] => none
  | (k1, v1) :: t =>
    match lookupLast k t with
    | some v => some v
    | none => if k1 = k then some v1 else none

/-! ## JSON values -/

/-- JSON values as produced by `response.json()`. -/
inductive JsonVal where
  | str : String → JsonVal
  | num : Int → JsonVal
  | bool : Bool → JsonVal
  | null : JsonVal
  | arr : List JsonVal → JsonVal
  | obj : List (String × JsonVal) → JsonVal

instance : Inhabited JsonVal := ⟨JsonVal.null⟩

/-- Is this JSON value Python `None`? -/
def JsonVal.isNull : JsonVal → Bool
  | .null => true
  | _ => false

/-- Python `j == s` for a string literal `s`: true only for an equal string. -/
def isStrEq (j : JsonVal) (s : String) : Bool :=
  match j with
  | .str t => t = s
  | _ => false

/-- Look up a key in a JSON object. -/
def jsonObjLookup (k : String) : List (String × JsonVal) → Option JsonVal
  | [] => none
  | (k1, v) :: t => if k1 = k then some v else jsonObjLookup k t

/-- Python `d.get(k, dflt)` on a JSON object (non-objects never reach this in
the modelled code paths; they yield the default). -/
def jsonGetD (j : JsonVal) (k : String) (dflt : JsonVal) : JsonVal :=
  match j with
  | .obj kvs => (jsonObjLookup k kvs).getD dflt
  | _ => dflt

/-- A list of metric-name strings as the JSON value returned by
`label/__name__/values`. -/
def strArr (names : List String) : JsonVal :=
  JsonVal.arr (names.map JsonVal.str)

/-! ## Exceptions

The constructors record which concrete Python exception is raised where, and
the class predicates record the (requests ≥ 2.27) class hierarchy expected by
the `except` clauses of `make_prometheus_request`. -/

/-- Python exceptions that the modelled code can raise. -/
inductive PyExc where
  /-- `ValueError` from `get_region_config`: unknown region.  Carries the
  requested name and the sorted list of configured region names that the
  message interpolates. -/
  | unknownRegion (requested : String) (availableSorted : List String)
  /-- `ValueError`: the resolved region has an empty URL. -/
  | urlMissing (region : String)
  /-- `requests.exceptions.ConnectionError` / timeout / TLS failure raised by
  `requests.get` (a `RequestException`). -/
  | connectionError (msg : String)
  /-- `requests.exceptions.HTTPError` raised by `raise_for_status` on a
  non-2xx status (a `RequestException`). -/
  | httpError (status : Nat)
  /-- `requests.exceptions.JSONDecodeError` raised by `response.json()`:
  subclass of both `RequestException` and `json.JSONDecodeError`. -/
  | requestsJsonDecodeError (msg : String)
  /-- `ValueError` raised when the upstream body has `status != "success"`;
  carries the `error` field of the body (or the generic default). -/
  | upstreamError (errField : JsonVal)
  /-- `ValueError` raised by the `except json.JSONDecodeError` clause:
  "Invalid JSON response from Prometheus: ...". -/
  | invalidResponse (msg : String)
  /-- `KeyError` from `result["status"]` / `result["data"]`. -/
  | keyError (key : String)
  /-- `TypeError` from subscripting / iterating a non-container. -/
  | typeError (msg : String)

instance : Inhabited PyExc := ⟨PyExc.typeError ("")⟩

/-- Membership in class `requests.exceptions.RequestException`.  In requests
≥ 2.27, `requests.exceptions.JSONDecodeError` subclasses `InvalidJSONError`,
which subclasses `RequestException`. -/
def PyExc.isRequestExceptionCls : PyExc → Bool
  | .connectionError _ => true
  | .httpError _ => true
  | .requestsJsonDecodeError _ => true
  | _ => false

/-- Membership in class `json.JSONDecodeError`. -/
def PyExc.isJsonDecodeErrorCls : PyExc → Bool
  | .requestsJsonDecodeError _ => true
  | _ => false

/-- Is this the `ValueError("Invalid JSON response from Prometheus: ...")`
classification (`InvalidResponse` in the spec)? -/
def PyExc.isInvalidResponseCls : PyExc → Bool
  | .invalidResponse _ => true
  | _ => false

/-- Python `str(e)` for the exceptions whose message the handlers surface.
Only the unknown-region message is inspected by any claim; the others are
rendered with a best-effort text. -/
def excMsg : PyExc → String
  | .unknownRegion requested availableSorted =>
    "Region \x27" ++ requested ++ "\x27 is not configured. Available regions: " ++
      String.intercalate (", ") availableSorted
  | .urlMissing region =>
    "Prometheus URL is not configured for region \x27" ++ region ++ "\x27."
  | .connectionError msg => msg
  | .httpError status => "HTTP error " ++ toString status
  | .requestsJsonDecodeError msg => msg
  | .upstreamError _ => "Prometheus API error"
  | .invalidResponse msg => msg
  | .keyError key => key
  | .typeError msg => msg

/-! ## Configuration data model -/

/-- `RegionConfig` (server.py lines 147-155). -/
structure RegionConfig where
  url : String
  url_ssl_verify : Bool := true
  username : Option String := none
  password : Option String := none
  token : Option String := none
  custom_headers : Option (List (String × String)) := none

/-- `PrometheusConfig` (server.py lines 157-165); the MCP transport settings
are outside the modelled core. -/
structure PrometheusConfig where
  regions : List (String × RegionConfig)
  default_region : String
  disable_prometheus_links : Bool := false
  org_id : Option String := none

/-- `get_region_config` (server.py lines 274-298).  `region is None` falls back
to the default region; the name is lowercased before lookup; an unknown name
raises `ValueError` whose message interpolates the requested name and
`", ".join(sorted(config.regions.keys()))`.  Pure: the registry is not
modified. -/
def get_region_config (cfg : PrometheusConfig) (region : Option String) :
    Except PyExc (String × RegionConfig) :=
  let r := region.getD cfg.default_region
  let region_normalized := pyLower r
  match List.lookup region_normalized cfg.regions with
  | some rc => .ok (region_normalized, rc)
  | none => .error (.unknownRegion r (sortStrings (cfg.regions.map Prod.fst)))

/-- The authentication object returned by `get_prometheus_auth`: a header
dict for bearer tokens, `HTTPBasicAuth` for basic auth, or `None`. -/
inductive PromAuth where
  | headerAuth (d : List (String × String))
  | basicAuth (username password : String)
  | noAuth

/-- `get_prometheus_auth` (server.py lines 300-313). -/
def get_prometheus_auth (rc : RegionConfig) : PromAuth :=
  if strTruthy rc.token then
    .headerAuth [("Authorization", "Bearer " ++ optStr rc.token)]
  else if strTruthy rc.username && strTruthy rc.password then
    .basicAuth (optStr rc.username) (optStr rc.password)
  else
    .noAuth

/-- The header construction of `make_prometheus_request` (server.py lines
341-352): start from `{}`, merge the bearer-token header dict if the auth is a
dict, set `X-Scope-OrgID` if a global org id is configured, then merge the
custom headers of the region (a truthy dict) last. -/
def buildRequestHeaders (cfg : PrometheusConfig) (rc : RegionConfig) :
    List (String × String) :=
  let headers : List (String × String) := []
  let headers :=
    match get_prometheus_auth rc with
    | .headerAuth d => dictUpdate headers d
    | _ => headers
  let headers :=
    if strTruthy cfg.org_id then dictSet headers ("X-Scope-OrgID") (optStr cfg.org_id)
    else headers
  match rc.custom_headers with
  | some ch => if ch.isEmpty then headers else dictUpdate headers ch
  | none => headers

/-- The basic-auth credentials passed to `requests.get` (after a dict auth is
moved into the headers and cleared). -/
def requestBasicAuth (rc : RegionConfig) : Option (String × String) :=
  match get_prometheus_auth rc with
  | .basicAuth u p => some (u, p)
  | _ => none

/-- `f"{region_config.url.rstrip('/')}/api/v1/{endpoint}"` (server.py line 338). -/
def buildRequestUrl (baseUrl endpoint : String) : String :=
  pyRstripSlash baseUrl ++ "/api/v1/" ++ endpoint

/-- One outbound HTTP request as handed to `requests.get`. -/
structure IssuedRequest where
  url : String
  params : List (String × String)
  headers : List (String × String)
  basicAuth : Option (String × String)
  sslVerify : Bool

/-- The single request `make_prometheus_request` hands to `requests.get` for a
resolved region. -/
def mkIssuedRequest (cfg : PrometheusConfig) (rc : RegionConfig)
    (endpoint : String) (params : List (String × String)) : IssuedRequest :=
  { url := buildRequestUrl rc.url endpoint
    params := params
    headers := buildRequestHeaders cfg rc
    basicAuth := requestBasicAuth rc
    sslVerify := rc.url_ssl_verify }

/-- The requests `make_prometheus_request` issues: none when region resolution
or the URL check fails before `requests.get` is reached, exactly one
otherwise. -/
def issuedRequests (cfg : PrometheusConfig) (endpoint : String)
    (params : List (String × String)) (region : Option String) :
    List IssuedRequest :=
  match get_region_config cfg region with
  | .error _ => []
  | .ok (_, rc) =>
    if rc.url == "" then [] else [mkIssuedRequest cfg rc endpoint params]

/-- What the network does for one call of `requests.get`: a transport-level
failure, or a response with a status code and a body (`none` when the body is
not parseable as JSON). -/
inductive TransportOutcome where
  | netFail (msg : String)
  | response (status : Nat) (bodyJson : Option JsonVal)

/-- Python `result[key]` on the parsed JSON body. -/
def pyGetItem (j : JsonVal) (k : String) : Except PyExc JsonVal :=
  match j with
  | .obj kvs =>
    match jsonObjLookup k kvs with
    | some v => .ok v
    | none => .error (.keyError k)
  | _ => .error (.typeError ("value is not subscriptable by string"))

/-- The `except` clauses of `make_prometheus_request` (server.py lines
376-384), applied to an exception `e` raised inside the `try` block:
`except requests.exceptions.RequestException: raise` (bare re-raise) comes
first, then `except json.JSONDecodeError` converts to the
`ValueError("Invalid JSON response from Prometheus: ...")`, then
`except Exception: raise` re-raises everything else. -/
def dispatchRequestExc (e : PyExc) : PyExc :=
  if e.isRequestExceptionCls then e
  else if e.isJsonDecodeErrorCls then
    .invalidResponse ("Invalid JSON response from Prometheus: " ++ excMsg e)
  else e

/-- The `try` block of `make_prometheus_request` (server.py lines 354-374):
issue the request, `raise_for_status`, parse JSON, check the top-level
`status` field, and return the `data` field. -/
def requestTryBlock (outcome : TransportOutcome) : Except PyExc JsonVal :=
  match outcome with
  | .netFail msg => .error (.connectionError msg)
  | .response status bodyJson =>
    if 400 ≤ status then .error (.httpError status)
    else
      match bodyJson with
      | none => .error (.requestsJsonDecodeError ("Expecting value"))
      | some result =>
        match pyGetItem result ("status") with
        | .error e => .error e
        | .ok st =>
          if !(isStrEq st ("success")) then
            .error (.upstreamError (jsonGetD result ("error") (JsonVal.str ("Unknown error"))))
          else
            pyGetItem result ("data")

/-- `make_prometheus_request` (server.py lines 315-384).  Region resolution and
the URL check happen before the `try` block, so their `ValueError`s propagate
untouched; exceptions from inside the `try` block go through the `except`
clauses (`dispatchRequestExc`). -/
def make_prometheus_request (cfg : PrometheusConfig) (endpoint : String)
    (params : List (String × String)) (region : Option String)
    (outcome : TransportOutcome) : Except PyExc JsonVal :=
  match get_region_config cfg region with
  | .error e => .error e
  | .ok (region_name, rc) =>
    if rc.url == "" then .error (.urlMissing region_name)
    else
      match requestTryBlock outcome with
      | .ok d => .ok d
      | .error e => .error (dispatchRequestExc e)

/-! ## Metrics cache (`get_cached_metrics`) -/

/-- `_CACHE_TTL = 300` (server.py line 21). -/
def CACHE_TTL : Nat := 300

/-- One entry of `_metrics_cache`: `{"data": ..., "timestamp": ...}`.  `data`
is whatever `make_prometheus_request` returned (`JsonVal.null` models Python
`None`); time is in whole seconds. -/
structure CacheEntry where
  data : JsonVal
  timestamp : Nat

/-- The `_metrics_cache` global: cache key to entry. -/
def CacheMap := List (String × CacheEntry)

/-- Store an entry under a key (Python `_metrics_cache[key] = ...`). -/
def cacheStore (cache : CacheMap) (k : String) (e : CacheEntry) : CacheMap :=
  let c : List (String × CacheEntry) := cache
  if c.any (fun p => p.1 = k) then
    c.map (fun p => if p.1 = k then (k, e) else p)
  else c ++ [(k, e)]

/-- Python `region.lower() if region else config.default_region` (truthiness:
`None` and `""` fall back to the default region). -/
def regionNameOrDefault (cfg : PrometheusConfig) (region : Option String) : String :=
  match region with
  | some r => if r == "" then cfg.default_region else pyLower r
  | none => cfg.default_region

/-- The cache key `f"{region_name}_metrics"` used by `get_cached_metrics`. -/
def cacheKeyOf (cfg : PrometheusConfig) (region : Option String) : String :=
  regionNameOrDefault cfg region ++ "_metrics"

/-- The freshness test (server.py line 401): the key is present, its data is
not `None`, and its age is below the TTL.  (With `Nat` subtraction a timestamp
in the future truncates to age 0, fresh — as in Python, where the difference
is negative.) -/
def cacheFresh (cache : CacheMap) (key : String) (now : Nat) : Bool :=
  match List.lookup key cache with
  | some e => !e.data.isNull && decide (now - e.timestamp < CACHE_TTL)
  | none => false

/-- The data of the cache entry under `key` (only read when present). -/
def cacheDataOf (cache : CacheMap) (key : String) : JsonVal :=
  match List.lookup key cache with
  | some e => e.data
  | none => JsonVal.null

/-- The degraded fallback of `get_cached_metrics` (server.py lines 413-416):
the (possibly expired) cached data if present and not `None`, else `[]`. -/
def staleFallback (cache : CacheMap) (key : String) : JsonVal :=
  match List.lookup key cache with
  | some e => if e.data.isNull then JsonVal.arr [] else e.data
  | none => JsonVal.arr []

/-- `get_cached_metrics` (server.py lines 386-416), with the global cache and
clock threaded explicitly.  Returns the data, the new cache state, and the
requests issued.  The function is total: the refresh failure is absorbed
(`except Exception` at line 411), so callers never see an exception. -/
def get_cached_metrics (cfg : PrometheusConfig) (cache : CacheMap) (now : Nat)
    (region : Option String) (outcome : TransportOutcome) :
    JsonVal × CacheMap × List IssuedRequest :=
  let cache_key := cacheKeyOf cfg region
  if cacheFresh cache cache_key now then
    (cacheDataOf cache cache_key, cache, [])
  else
    match make_prometheus_request cfg ("label/__name__/values") [] region outcome with
    | .ok d =>
      (d, cacheStore cache cache_key ⟨d, now⟩,
        issuedRequests cfg ("label/__name__/values") [] region)
    | .error _ =>
      (staleFallback cache cache_key, cache,
        issuedRequests cfg ("label/__name__/values") [] region)

/-! ## Python slicing -/

/-- Clamp one bound of a Python slice of a list of length `n`. -/
def pySliceIdx (n : Nat) (i : Int) : Nat :=
  if i < 0 then ((n : Int) + i).toNat else min i.toNat n

/-- Python `xs[a:b]` (step 1) with full negative-index semantics. -/
def pySlice {α : Type} (xs : List α) (a b : Int) : List α :=
  let lo := pySliceIdx xs.length a
  let hi := pySliceIdx xs.length b
  (xs.drop lo).take (hi - lo)

/-! ## `list_metrics` -/

/-- The result dictionary of `list_metrics`. -/
structure ListMetricsResult where
  metrics : List String
  total_count : Nat
  returned_count : Nat
  offset : Int
  has_more : Bool
  region : String

/-- Read a JSON array of strings as a list of strings (the shape
`label/__name__/values` returns).  In Python a non-string element would raise
`AttributeError` inside the filter comprehension; the guard models that the
rest of the handler operates on a list of names. -/
def strListOfJson : List JsonVal → Option (List String)
  | [] => some []
  | .str s :: t => (strListOfJson t).map (fun l => s :: l)
  | _ :: _ => none

def asStrList : JsonVal → Option (List String)
  | .arr items => strListOfJson items
  | _ => none

/-- The filter step of `list_metrics` (server.py lines 604-607): when the
pattern is truthy, keep the names whose lowercase form contains the lowercase
pattern as a substring. -/
def pyFilterMetrics (filter_pattern : Option String) (names : List String) :
    List String :=
  if strTruthy filter_pattern then
    names.filter (fun m => pyInStr (pyLower (optStr filter_pattern)) (pyLower m))
  else names

/-- `list_metrics` (server.py lines 567-635).  It calls
`make_prometheus_request` directly (line 598) — not `get_cached_metrics` — so
the global `_metrics_cache` is threaded through untouched.  Pagination:
`end_idx = offset + limit if limit is not None else len(data)`,
`paginated_data = data[start_idx:end_idx]`,
`has_more = end_idx < total_count`. -/
def list_metrics (cfg : PrometheusConfig) (cache : CacheMap)
    (limit : Option Int) (offset : Int) (filter_pattern : Option String)
    (region : Option String) (outcome : TransportOutcome) :
    Except PyExc ListMetricsResult × CacheMap × List IssuedRequest :=
  let region_name := regionNameOrDefault cfg region
  let body : Except PyExc ListMetricsResult :=
    match make_prometheus_request cfg ("label/__name__/values") [] region outcome with
    | .error e => .error e
    | .ok dv =>
      match asStrList dv with
      | none => .error (.typeError ("metric names are not a list of strings"))
      | some data0 =>
        let data := pyFilterMetrics filter_pattern data0
        let total_count := data.length
        let start_idx := offset
        let end_idx : Int :=
          match limit with
          | some l => offset + l
          | none => (data.length : Int)
        let paginated_data := pySlice data start_idx end_idx
        .ok
          { metrics := paginated_data
            total_count := total_count
            returned_count := paginated_data.length
            offset := offset
            has_more := decide (end_idx < (total_count : Int))
            region := region_name }
  (body, cache, issuedRequests cfg ("label/__name__/values") [] region)

/-! ## `get_metric_metadata` -/

/-- Python `k in j` for a JSON value: key membership for an object, element
membership for an array, substring test for a string; non-containers raise
`TypeError`. -/
def pyContains (j : JsonVal) (k : String) : Except PyExc Bool :=
  match j with
  | .obj kvs => .ok (kvs.any (fun p => p.1 = k))
  | .arr xs => .ok (xs.any (fun x => isStrEq x k))
  | .str s => .ok (pyInStr k s)
  | _ => .error (.typeError ("argument is not iterable"))

/-- The result dictionary of `get_metric_metadata`. -/
structure MetadataResult where
  metadata : JsonVal
  region : String

/-- The endpoint string `f"metadata?metric={metric}"` (server.py line 660):
direct concatenation, no URL encoding. -/
def metadataEndpoint (metric : String) : String :=
  "metadata?metric=" ++ metric

/-- The shape normalization of `get_metric_metadata` (server.py lines
662-669): take the value under `"metadata"`, else under `"data"`, else the
payload itself; wrap a single mapping into a one-element sequence. -/
def normalizeMetadata (data : JsonVal) : Except PyExc JsonVal := do
  let hasMeta ← pyContains data ("metadata")
  let md ←
    if hasMeta then pyGetItem data ("metadata")
    else do
      let hasData ← pyContains data ("data")
      if hasData then pyGetItem data ("data") else pure data
  match md with
  | .obj kvs => pure (JsonVal.arr [JsonVal.obj kvs])
  | _ => pure md

/-- `get_metric_metadata` (server.py lines 648-674). -/
def get_metric_metadata (cfg : PrometheusConfig) (metric : String)
    (region : Option String) (outcome : TransportOutcome) :
    Except PyExc MetadataResult × List IssuedRequest :=
  let region_name := regionNameOrDefault cfg region
  let endpoint := metadataEndpoint metric
  let body : Except PyExc MetadataResult :=
    match make_prometheus_request cfg endpoint [] region outcome with
    | .error e => .error e
    | .ok data =>
      match normalizeMetadata data with
      | .error e => .error e
      | .ok md => .ok { metadata := md, region := region_name }
  (body, issuedRequests cfg endpoint [] region)

/-! ## `health_check` -/

/-- Truthiness of the optional `region` argument (`if region:`). -/
def regionTruthy : Option String → Bool
  | none => false
  | some r => !(r == "")

/-- The per-region detail built by the all-regions loop of `health_check`. -/
inductive ProbeEntry where
  | healthy (url : String)
  | degraded (errMsg : String)

/-- The health payload fields the modelled claims inspect.  The static
service/version/configuration fields are constant and omitted. -/
structure HealthResult where
  status : String
  region : Option String := none
  prometheus_connectivity : Option String := none
  prometheus_error : Option String := none
  error : Option String := none
  regions : Option (List (String × ProbeEntry)) := none

/-- The connectivity probe: `make_prometheus_request("query",
params={"query": "up", "time": str(int(time.time()))}, region=region_name)`. -/
def probeRegion (cfg : PrometheusConfig) (now : Nat) (region_name : String)
    (outcome : TransportOutcome) : Except PyExc JsonVal :=
  make_prometheus_request cfg ("query")
    [(("query"), ("up")), (("time"), toString now)] (some region_name) outcome

/-- The all-regions loop of `health_check` (server.py lines 84-100): probe
each configured region inside its own `try`, collect per-region status keyed
by region name, and track `all_healthy`. -/
def healthLoop (cfg : PrometheusConfig) (now : Nat)
    (outcomes : String → TransportOutcome) :
    List (String × ProbeEntry) × Bool :=
  cfg.regions.foldl
    (fun acc p =>
      match probeRegion cfg now p.1 (outcomes p.1) with
      | .ok _ => (acc.1 ++ [(p.1, ProbeEntry.healthy p.2.url)], acc.2)
      | .error e => (acc.1 ++ [(p.1, ProbeEntry.degraded (excMsg e))], false))
    ([], true)

/-- `health_check` (server.py lines 38-116).  A truthy `region` probes just
that region: resolution failure is caught by `except ValueError` and folded
into an `"unhealthy"` payload carrying `str(e)`; a probe failure is caught by
the inner `except Exception` and yields `"degraded"`.  Otherwise every
configured region is probed independently; the overall status is
`"degraded"` iff any probe failed.  The function is total — the outer
`except Exception` can never be reached in the modelled paths, so no exception
escapes. -/
def health_check (cfg : PrometheusConfig) (now : Nat) (region : Option String)
    (outcomes : String → TransportOutcome) : HealthResult :=
  if regionTruthy region then
    match get_region_config cfg region with
    | .ok (region_name, rc) =>
      match probeRegion cfg now region_name (outcomes region_name) with
      | .ok _ =>
        { status := "healthy"
          prometheus_connectivity := some ("healthy")
          region := some region_name }
      | .error e =>
        { status := "degraded"
          prometheus_connectivity := some ("unhealthy")
          prometheus_error := some (excMsg e)
          region := some region_name }
    | .error e =>
      { status := "unhealthy", error := some (excMsg e) }
  else
    let loop := healthLoop cfg now outcomes
    { status := if loop.2 then ("healthy") else ("degraded")
      regions := some loop.1 }

/-- Did an `Except` computation succeed? -/
def exceptOk {ε α : Type} : Except ε α → Bool
  | .ok _ => true
  | .error _ => false

/-- The per-region detail entry the all-regions loop computes for one region:
a function of the probe outcome of that region only. -/
def probeEntryOf (cfg : PrometheusConfig) (now : Nat)
    (outcomes : String → TransportOutcome) (p : String × RegionConfig) :
    ProbeEntry :=
  match probeRegion cfg now p.1 (outcomes p.1) with
  | .ok _ => ProbeEntry.healthy p.2.url
  | .error e => ProbeEntry.degraded (excMsg e)

/-- Did the probe of one region succeed? -/
def probeOk (cfg : PrometheusConfig) (now : Nat)
    (outcomes : String → TransportOutcome) (p : String × RegionConfig) : Bool :=
  exceptOk (probeRegion cfg now p.1 (outcomes p.1))

/-! ## Spec-side formulas and concrete fixtures -/

/-- The three result fields of `list_metrics` that the pagination property
talks about: `(returned_count, total_count, has_more)`. -/
def lmStats (r : ListMetricsResult) : Nat × Nat × Bool :=
  (r.returned_count, r.total_count, r.has_more)

/-- The claimed returned count, following the spec text:
`min(L, max(0, filteredCount - O))`, with `L` defaulting to the remaining
length when absent. -/
def specReturnedCount (f offset : Int) (limit : Option Int) : Int :=
  min (limit.getD (max 0 (f - offset))) (max 0 (f - offset))

/-- The claimed `has_more`: `offset + returned_count < filteredCount`. -/
def specHasMore (f offset : Int) (limit : Option Int) : Bool :=
  decide (offset + specReturnedCount f offset limit < f)

/-- A 200 response whose JSON body is `{"status": "success", "data": payload}`. -/
def successOutcome (payload : JsonVal) : TransportOutcome :=
  TransportOutcome.response 200
    (some (JsonVal.obj [(("status"), JsonVal.str ("success")), (("data"), payload)]))

/-- Fixture: the `atl` region of the test suite. -/
def rcAtl : RegionConfig := { url := "http://atl.example.com:9090" }

/-- Fixture: a single-region configuration with default region `atl`. -/
def cfgAtl : PrometheusConfig :=
  { regions := [(("atl"), rcAtl)], default_region := "atl" }

/-- Fixture for C1: a cache holding a fresh `atl` entry fetched at t=1000. -/
def cacheC1 : CacheMap :=
  [(("atl_metrics"), { data := strArr ["up"], timestamp := 1000 })]

/-- Fixture for C1: the network would deliver a fresh metric list. -/
def outC1 : TransportOutcome := successOutcome (strArr ["up", "node_load1"])

/-- Fixture for C2: bearer token plus a custom `Authorization` header. -/
def rcC2 : RegionConfig :=
  { url := "http://x"
    token := some ("token123")
    custom_headers := some [(("Authorization"), "Basic forged")] }

/-- Fixture for C2: one region `r` with `rcC2`. -/
def cfgC2 : PrometheusConfig :=
  { regions := [(("r"), rcC2)], default_region := "r" }

/-- Fixture for C5: a cache whose `atl` entry is expired (fetched at t=0,
inspected at t=1000 with TTL 300) but holds data. -/
def cacheC5 : CacheMap :=
  [(("atl_metrics"), { data := strArr ["up"], timestamp := 0 })]

/-- Fixture for C6: two regions; probes of `bad` fail, probes of `atl`
succeed. -/
def cfgC6 : PrometheusConfig :=
  { regions := [(("atl"), rcAtl), (("bad"), { url := "http://bad" })]
    default_region := "atl" }

/-- Fixture for C6: the per-region network behaviour. -/
def outcomesC6 (rn : String) : TransportOutcome :=
  if rn == "bad" then TransportOutcome.netFail ("Connection refused")
  else successOutcome (JsonVal.obj [(("resultType"), JsonVal.str ("vector")), (("result"), JsonVal.arr [])])

/-- Fixture for C7/C9: two regions `blr`, `atl` (deliberately not in sorted
order). -/
def cfgTwo : PrometheusConfig :=
  { regions := [(("blr"), { url := "http://blr.example.com:9090" }), (("atl"), rcAtl)]
    default_region := "atl" }

/-! ## Supporting lemmas -/

theorem char_toNat_ofNat_valid (m : Nat) (h : m.isValidChar) :
    (Char.ofNat m).toNat = m := by
  unfold Char.ofNat
  rw [dif_pos h]
  simp [Char.ofNatAux, Char.toNat, UInt32.toNat]

theorem toLower_not_upper (c : Char) :
    ¬(c.toLower.toNat ≥ 65 ∧ c.toLower.toNat ≤ 90) := by
  simp only [Char.toLower]
  by_cases h : c.toNat ≥ 65 ∧ c.toNat ≤ 90
  · rw [if_pos h, char_toNat_ofNat_valid _ (Or.inl (by omega))]
    omega
  · rw [if_neg h]
    omega

theorem toLower_toLower (c : Char) : c.toLower.toLower = c.toLower := by
  obtain ⟨d, hd, heq⟩ :
      ∃ d, ¬(d.toNat ≥ 65 ∧ d.toNat ≤ 90) ∧ c.toLower = d :=
    ⟨c.toLower, toLower_not_upper c, rfl⟩
  rw [heq]
  simp only [Char.toLower]
  rw [if_neg hd]

theorem pyLower_pyLower (s : String) : pyLower (pyLower s) = pyLower s := by
  unfold pyLower
  show String.mk ((s.data.map Char.toLower).map Char.toLower) =
    String.mk (s.data.map Char.toLower)
  apply congrArg String.mk
  rw [List.map_map]
  exact List.map_congr_left (fun c _ => toLower_toLower c)

theorem char_lt_iff_toNat {a b : Char} : a < b ↔ a.toNat < b.toNat := Iff.rfl

theorem char_lt_or_gt_of_ne {a b : Char} (h : a ≠ b) : a < b ∨ b < a := by
  have hne : a.toNat ≠ b.toNat := by
    intro hn
    exact h (Char.eq_of_val_eq (UInt32.toNat.inj hn))
  rw [char_lt_iff_toNat, char_lt_iff_toNat]
  omega

theorem charListLe_total : ∀ l1 l2 : List Char,
    charListLe l1 l2 = true ∨ charListLe l2 l1 = true := by
  intro l1
  induction l1 with
  | nil => intro l2; left; rfl
  | cons a as ih =>
    intro l2
    cases l2 with
    | nil => right; rfl
    | cons b bs =>
      by_cases hab : a = b
      · subst hab
        simp only [charListLe, if_pos rfl]
        exact ih bs
      · rcases char_lt_or_gt_of_ne hab with hlt | hgt
        · left
          simp only [charListLe, if_neg hab]
          exact decide_eq_true hlt
        · right
          simp only [charListLe, if_neg (Ne.symm hab)]
          exact decide_eq_true hgt

theorem charListLe_trans : ∀ l1 l2 l3 : List Char,
    charListLe l1 l2 = true → charListLe l2 l3 = true → charListLe l1 l3 = true := by
  intro l1
  induction l1 with
  | nil => intro l2 l3 _ _; rfl
  | cons a as ih =>
    intro l2 l3 h12 h23
    cases l2 with
    | nil => exact absurd h12 (by simp [charListLe])
    | cons b bs =>
      cases l3 with
      | nil => exact absurd h23 (by simp [charListLe])
      | cons c cs =>
        by_cases hab : a = b <;> by_cases hbc : b = c
        · subst hab; subst hbc
          simp only [charListLe, if_pos rfl] at h12 h23 ⊢
          exact ih bs cs h12 h23
        · subst hab
          simp only [charListLe, if_neg hbc] at h23 ⊢
          exact h23
        · subst hbc
          simp only [charListLe, if_neg hab] at h12 ⊢
          exact h12
        · simp only [charListLe, if_neg hab] at h12
          simp only [charListLe, if_neg hbc] at h23
          have hac : a < c := Char.lt_trans (of_decide_eq_true h12) (of_decide_eq_true h23)
          simp only [charListLe, if_neg (Char.ne_of_lt hac)]
          exact decide_eq_true hac

instance : IsTotal String (fun a b => pyStrLe a b = true) :=
  ⟨fun a b => charListLe_total a.data b.data⟩

instance : IsTrans String (fun a b => pyStrLe a b = true) :=
  ⟨fun a b c => charListLe_trans a.data b.data c.data⟩

/-- `sortStrings` really sorts ascending with respect to Python string order. -/
theorem sortStrings_sorted (l : List String) :
    List.Sorted (fun a b => pyStrLe a b = true) (sortStrings l) :=
  List.sorted_insertionSort _ l

/-- `sortStrings` is a permutation of its input. -/
theorem sortStrings_perm (l : List String) : List.Perm (sortStrings l) l :=
  List.perm_insertionSort _ l

/-! ### Dict lookup lemmas -/

theorem lookup_cons_eq (x y k2 : String) (t : List (String × String))
    (h : k2 = x) : List.lookup k2 ((x, y) :: t) = some y := by
  simp [List.lookup, h]

theorem lookup_cons_ne (x y k2 : String) (t : List (String × String))
    (h : ¬(k2 = x)) : List.lookup k2 ((x, y) :: t) = List.lookup k2 t := by
  have hb : (k2 == x) = false := beq_eq_false_iff_ne.mpr h
  simp [List.lookup, hb]

theorem lookup_map_set (k v k2 : String) (d : List (String × String)) :
    List.lookup k2 (d.map (fun p => if p.1 = k then (k, v) else p)) =
      if k2 = k then (List.lookup k2 d).map (fun _ => v) else List.lookup k2 d := by
  induction d with
  | nil => by_cases h : k2 = k <;> simp [List.lookup, h]
  | cons p t ih =>
    obtain ⟨a, b⟩ := p
    simp only [List.map_cons]
    by_cases hak : a = k
    · subst hak
      rw [if_pos rfl]
      by_cases h2 : k2 = a
      · subst h2
        rw [lookup_cons_eq _ _ _ _ rfl, lookup_cons_eq _ _ _ _ rfl, if_pos rfl]
        rfl
      · rw [lookup_cons_ne _ _ _ _ h2, lookup_cons_ne _ _ _ _ h2, ih]
    · rw [if_neg hak]
      by_cases h2 : k2 = a
      · subst h2
        rw [lookup_cons_eq _ _ _ _ rfl, lookup_cons_eq _ _ _ _ rfl, if_neg hak]
      · rw [lookup_cons_ne _ _ _ _ h2, lookup_cons_ne _ _ _ _ h2, ih]

theorem lookup_append_single (k v k2 : String) (d : List (String × String)) :
    List.lookup k2 (d ++ [(k, v)]) =
      match List.lookup k2 d with
      | some w => some w
      | none => if k2 = k then some v else none := by
  induction d with
  | nil =>
    by_cases h : k2 = k
    · simp [List.lookup, h]
    · have hb : (k2 == k) = false := beq_eq_false_iff_ne.mpr h
      simp [List.lookup, hb, h]
  | cons p t ih =>
    obtain ⟨a, b⟩ := p
    by_cases h2 : k2 = a
    · subst h2
      rw [List.cons_append, lookup_cons_eq _ _ _ _ rfl, lookup_cons_eq _ _ _ _ rfl]
    · rw [List.cons_append, lookup_cons_ne _ _ _ _ h2, lookup_cons_ne _ _ _ _ h2, ih]

theorem lookup_isSome_of_any (k : String) (d : List (String × String))
    (h : d.any (fun p => p.1 = k) = true) : (List.lookup k d).isSome := by
  induction d with
  | nil => simp at h
  | cons p t ih =>
    obtain ⟨a, b⟩ := p
    by_cases hak : k = a
    · rw [lookup_cons_eq _ _ _ _ hak]
      rfl
    · rw [lookup_cons_ne _ _ _ _ hak]
      simp only [List.any_cons, decide_eq_true_eq, Bool.or_eq_true] at h
      rcases h with h | h
      · exact absurd h.symm hak
      · exact ih h

theorem any_of_lookup_some (k w : String) (d : List (String × String))
    (h : List.lookup k d = some w) : d.any (fun p => p.1 = k) = true := by
  induction d with
  | nil => simp [List.lookup] at h
  | cons p t ih =>
    obtain ⟨a, b⟩ := p
    by_cases h3 : k = a
    · simp [h3]
    · rw [lookup_cons_ne _ _ _ _ h3] at h
      simp only [List.any_cons, Bool.or_eq_true, decide_eq_true_eq]
      exact Or.inr (ih h)

theorem lookup_dictSet (k v k2 : String) (d : List (String × String)) :
    List.lookup k2 (dictSet d k v) =
      if k2 = k then some v else List.lookup k2 d := by
  unfold dictSet
  by_cases hany : d.any (fun p => p.1 = k) = true
  · rw [if_pos hany, lookup_map_set]
    by_cases h2 : k2 = k
    · subst h2
      rw [if_pos rfl, if_pos rfl]
      obtain ⟨w, hw⟩ := Option.isSome_iff_exists.mp (lookup_isSome_of_any k2 d hany)
      rw [hw]
      rfl
    · rw [if_neg h2, if_neg h2]
  · rw [if_neg hany, lookup_append_single]
    by_cases h2 : k2 = k
    · subst h2
      have hnone : List.lookup k2 d = none := by
        cases hl : List.lookup k2 d with
        | none => rfl
        | some w => exact absurd (any_of_lookup_some k2 w d hl) hany
      rw [hnone]
    · simp only [if_neg h2]
      cases List.lookup k2 d <;> rfl

theorem lookup_dictUpdate (k2 : String) (e d : List (String × String)) :
    List.lookup k2 (dictUpdate d e) =
      match lookupLast k2 e with
      | some v => some v
      | none => List.lookup k2 d := by
  induction e generalizing d with
  | nil => rfl
  | cons p t ih =>
    obtain ⟨k1, v1⟩ := p
    show List.lookup k2 (dictUpdate (dictSet d k1 v1) t) = _
    rw [ih]
    cases hlt : lookupLast k2 t with
    | some v => simp [lookupLast, hlt]
    | none =>
      rw [lookup_dictSet]
      by_cases h2 : k2 = k1
      · subst h2
        simp [lookupLast, hlt]
      · rw [if_neg h2]
        have : ¬(k1 = k2) := fun h => h2 h.symm
        simp [lookupLast, hlt, this]

/-! ### Miscellaneous supporting lemmas -/

theorem asStrList_strArr (names : List String) :
    asStrList (strArr names) = some names := by
  show strListOfJson (names.map JsonVal.str) = some names
  induction names with
  | nil => rfl
  | cons n t ih =>
    simp only [List.map_cons, strListOfJson]
    rw [ih]
    rfl

theorem healthLoop_foldl (cfg : PrometheusConfig) (now : Nat)
    (outcomes : String → TransportOutcome) :
    ∀ (rs : List (String × RegionConfig)) (acc : List (String × ProbeEntry) × Bool),
      rs.foldl
        (fun acc p =>
          match probeRegion cfg now p.1 (outcomes p.1) with
          | .ok _ => (acc.1 ++ [(p.1, ProbeEntry.healthy p.2.url)], acc.2)
          | .error e => (acc.1 ++ [(p.1, ProbeEntry.degraded (excMsg e))], false))
        acc =
      (acc.1 ++ rs.map (fun p => (p.1, probeEntryOf cfg now outcomes p)),
        acc.2 && rs.all (fun p => probeOk cfg now outcomes p)) := by
  intro rs
  induction rs with
  | nil => intro acc; simp
  | cons p t ih =>
    intro acc
    simp only [List.foldl_cons, List.map_cons, List.all_cons]
    cases hp : probeRegion cfg now p.1 (outcomes p.1) with
    | ok v =>
      rw [ih]
      simp [probeEntryOf, probeOk, exceptOk, hp]
    | error e =>
      rw [ih]
      simp [probeEntryOf, probeOk, exceptOk, hp]

/-- The all-regions loop visits every configured region, each entry depending
only on the probe outcome of that region; the flag is true iff all probes
succeeded. -/
theorem healthLoop_eq (cfg : PrometheusConfig) (now : Nat)
    (outcomes : String → TransportOutcome) :
    healthLoop cfg now outcomes =
      (cfg.regions.map (fun p => (p.1, probeEntryOf cfg now outcomes p)),
        cfg.regions.all (fun p => probeOk cfg now outcomes p)) := by
  unfold healthLoop
  rw [healthLoop_foldl]
  simp

/-! ## Claim theorems -/

/-- C7: for every requested region name whose lowercased form is not a
configured key, region resolution fails with the unknown-region `ValueError`
carrying the requested name and the list of configured region names sorted in
ascending (Python string) order.  `get_region_config` is pure, so the registry
is unchanged. -/
theorem unknown_region_error_sorted (cfg : PrometheusConfig) (r : String)
    (hr : List.lookup (pyLower r) cfg.regions = none) :
    get_region_config cfg (some r) =
      .error (.unknownRegion r (sortStrings (cfg.regions.map Prod.fst))) ∧
    List.Sorted (fun a b => pyStrLe a b = true)
      (sortStrings (cfg.regions.map Prod.fst)) ∧
    List.Perm (sortStrings (cfg.regions.map Prod.fst)) (cfg.regions.map Prod.fst) := by
  refine ⟨?_, sortStrings_sorted _, sortStrings_perm _⟩
  unfold get_region_config
  simp only [Option.getD_some]
  rw [hr]

/-- C7 witness: requesting `XYZ` against regions `blr`, `atl` fails with the
error carrying `XYZ` and `["atl", "blr"]`. -/
theorem unknown_region_error_sorted_witness :
    List.lookup (pyLower ("XYZ")) cfgTwo.regions = none ∧
    (get_region_config cfgTwo (some ("XYZ")) =
      .error (.unknownRegion ("XYZ") (sortStrings (cfgTwo.regions.map Prod.fst))) ∧
    List.Sorted (fun a b => pyStrLe a b = true)
      (sortStrings (cfgTwo.regions.map Prod.fst)) ∧
    List.Perm (sortStrings (cfgTwo.regions.map Prod.fst)) (cfgTwo.regions.map Prod.fst)) :=
  ⟨rfl, unknown_region_error_sorted cfgTwo ("XYZ") rfl⟩

/-- C9: region resolution is case-insensitive and idempotent: any two casing
variants of a configured region resolve to the same canonical pair, and
resolving the returned canonical name again yields the same result. -/
theorem region_resolution_case_insensitive (cfg : PrometheusConfig)
    (s1 s2 : String) (rc : RegionConfig)
    (h12 : pyLower s1 = pyLower s2)
    (hc : List.lookup (pyLower s1) cfg.regions = some rc) :
    get_region_config cfg (some s1) = .ok (pyLower s1, rc) ∧
    get_region_config cfg (some s2) = .ok (pyLower s1, rc) ∧
    get_region_config cfg (some (pyLower s1)) = .ok (pyLower s1, rc) := by
  have key : ∀ t : String, pyLower t = pyLower s1 →
      get_region_config cfg (some t) = .ok (pyLower s1, rc) := by
    intro t ht
    unfold get_region_config
    simp only [Option.getD_some]
    rw [ht, hc]
  exact ⟨key s1 rfl, key s2 h12.symm, key (pyLower s1) (pyLower_pyLower s1)⟩

/-- C9 witness: `resolve("ATL") == resolve("AtL") == resolve("atl")` on the
two-region fixture. -/
theorem region_resolution_case_insensitive_witness :
    pyLower ("ATL") = pyLower ("AtL") ∧
    List.lookup (pyLower ("ATL")) cfgTwo.regions = some rcAtl ∧
    (get_region_config cfgTwo (some ("ATL")) = .ok (pyLower ("ATL"), rcAtl) ∧
    get_region_config cfgTwo (some ("AtL")) = .ok (pyLower ("ATL"), rcAtl) ∧
    get_region_config cfgTwo (some (pyLower ("ATL"))) = .ok (pyLower ("ATL"), rcAtl)) :=
  ⟨rfl, rfl, region_resolution_case_insensitive cfgTwo ("ATL") ("AtL") rcAtl rfl rfl⟩

/-- C10: `get_metric_metadata` builds its endpoint by direct string
concatenation, so the request URL is exactly
`<base>/api/v1/metadata?metric=<m>` with the metric name inserted verbatim —
not URL-encoded; concretely, a metric containing `&`, `#` and a space reaches
the URL unchanged. -/
theorem metadata_url_verbatim :
    (∀ base metric : String,
      buildRequestUrl base (metadataEndpoint metric) =
        pyRstripSlash base ++ "/api/v1/metadata?metric=" ++ metric) ∧
    (get_metric_metadata cfgAtl ("a&b #c") (some ("atl"))
        (TransportOutcome.netFail ("down"))).2.map (fun q => q.url) =
      ["http://atl.example.com:9090/api/v1/metadata?metric=a&b #c"] := by
  constructor
  · intro base metric
    unfold buildRequestUrl metadataEndpoint
    rw [String.append_assoc (pyRstripSlash base),
      ← String.append_assoc ("/api/v1/") ("metadata?metric=") metric,
      show ("/api/v1/" ++ "metadata?metric=" : String) = "/api/v1/metadata?metric=" from rfl,
      ← String.append_assoc]
  · rfl

/-- C8: `get_metric_metadata` normalizes all three upstream payload shapes —
metadata keyed under `"data"`, under `"metadata"`, or the payload being the
metadata itself — into the one-element sequence `[{"metric": "up"}]`, returned
alongside the region. -/
theorem metadata_shape_normalization :
    (get_metric_metadata cfgAtl ("up") (some ("atl"))
        (successOutcome (JsonVal.obj
          [(("data"), JsonVal.arr [JsonVal.obj [(("metric"), JsonVal.str ("up"))]])]))).1 =
      .ok { metadata := JsonVal.arr [JsonVal.obj [(("metric"), JsonVal.str ("up"))]]
            region := "atl" } ∧
    (get_metric_metadata cfgAtl ("up") (some ("atl"))
        (successOutcome (JsonVal.obj
          [(("metadata"), JsonVal.obj [(("metric"), JsonVal.str ("up"))])]))).1 =
      .ok { metadata := JsonVal.arr [JsonVal.obj [(("metric"), JsonVal.str ("up"))]]
            region := "atl" } ∧
    (get_metric_metadata cfgAtl ("up") (some ("atl"))
        (successOutcome (JsonVal.obj [(("metric"), JsonVal.str ("up"))]))).1 =
      .ok { metadata := JsonVal.arr [JsonVal.obj [(("metric"), JsonVal.str ("up"))]]
            region := "atl" } :=
  ⟨rfl, rfl, rfl⟩

/-- C3 (code bug): on a 2xx response whose body is not parseable JSON,
`make_prometheus_request` fails with the re-raised
`requests.exceptions.JSONDecodeError` — which the `except
requests.exceptions.RequestException` clause catches first and re-raises bare
(the `TransportError` classification of the spec) — and not with the
`ValueError("Invalid JSON response...")` (`InvalidResponse`) that the dead
`except json.JSONDecodeError` clause would produce.  The final conjunct shows
the exception dispatch is the identity: the `InvalidResponse` branch is
unreachable. -/
theorem invalid_json_hits_request_exception_branch :
    make_prometheus_request cfgAtl ("query") [] (some ("atl"))
        (TransportOutcome.response 200 none) =
      .error (.requestsJsonDecodeError ("Expecting value")) ∧
    PyExc.isRequestExceptionCls (.requestsJsonDecodeError ("Expecting value")) = true ∧
    PyExc.isInvalidResponseCls (.requestsJsonDecodeError ("Expecting value")) = false ∧
    (∀ e : PyExc, dispatchRequestExc e = e) := by
  refine ⟨rfl, rfl, rfl, ?_⟩
  intro e
  cases e <;> rfl

/-- C2 counterexample: region `r` has bearer token `token123` and custom
headers `{"Authorization": "Basic forged"}`; the single request
`make_prometheus_request` hands to `requests.get` carries
`Authorization: Basic forged`, not `Authorization: Bearer token123` — the
custom header overrides the auth header, refuting the claim. -/
theorem custom_header_overrides_auth_cex :
    strTruthy rcC2.token = true ∧
    (issuedRequests cfgC2 ("query") [] (some ("r"))).map
        (fun q => List.lookup ("Authorization") q.headers) =
      [some ("Basic forged")] ∧
    ¬(("Basic forged" : String) = "Bearer " ++ optStr rcC2.token) := by
  refine ⟨rfl, rfl, by decide⟩

/-- C2 amended: custom headers are merged last, after the org header, and can
override every earlier header including the auth header: with a truthy bearer
token, the outbound `Authorization` header is the custom `Authorization` value when
that key is present in the custom dict, and `Bearer <token>` only
otherwise. -/
theorem custom_headers_merged_last (cfg : PrometheusConfig) (rc : RegionConfig)
    (ch : List (String × String))
    (hT : strTruthy rc.token = true)
    (hCH : rc.custom_headers = some ch) :
    List.lookup ("Authorization") (buildRequestHeaders cfg rc) =
      match lookupLast ("Authorization") ch with
      | some v => some v
      | none => some ("Bearer " ++ optStr rc.token) := by
  have hauth : get_prometheus_auth rc =
      PromAuth.headerAuth [(("Authorization"), "Bearer " ++ optStr rc.token)] := by
    unfold get_prometheus_auth
    rw [hT]
    rfl
  have horg : ∀ h1 : List (String × String),
      List.lookup ("Authorization")
        (if strTruthy cfg.org_id then
          dictSet h1 ("X-Scope-OrgID") (optStr cfg.org_id)
        else h1) =
      List.lookup ("Authorization") h1 := by
    intro h1
    by_cases hOrg : strTruthy cfg.org_id = true
    · rw [if_pos hOrg, lookup_dictSet, if_neg (by decide)]
    · rw [if_neg hOrg]
  have hbase : List.lookup ("Authorization")
      (dictUpdate [] [(("Authorization"), "Bearer " ++ optStr rc.token)]) =
      some ("Bearer " ++ optStr rc.token) := by
    rw [lookup_dictUpdate]
    rfl
  have hBH : buildRequestHeaders cfg rc =
      (if ch.isEmpty then
        (if strTruthy cfg.org_id then
          dictSet (dictUpdate [] [(("Authorization"), "Bearer " ++ optStr rc.token)])
            ("X-Scope-OrgID") (optStr cfg.org_id)
        else dictUpdate [] [(("Authorization"), "Bearer " ++ optStr rc.token)])
      else
        dictUpdate
          (if strTruthy cfg.org_id then
            dictSet (dictUpdate [] [(("Authorization"), "Bearer " ++ optStr rc.token)])
              ("X-Scope-OrgID") (optStr cfg.org_id)
          else dictUpdate [] [(("Authorization"), "Bearer " ++ optStr rc.token)])
          ch) := by
    unfold buildRequestHeaders
    rw [hauth, hCH]
  rw [hBH]
  by_cases hE : ch.isEmpty = true
  · have hnil : ch = [] := List.isEmpty_iff.mp hE
    subst hnil
    rw [if_pos (show ([] : List (String × String)).isEmpty = true from rfl), horg, hbase]
    rfl
  · rw [if_neg hE, lookup_dictUpdate]
    cases hL : lookupLast ("Authorization") ch with
    | some v => rfl
    | none => rw [horg]; exact hbase

/-- C2 witness: on the counterexample fixture the outbound `Authorization`
value is the binding from the custom dict. -/
theorem custom_headers_merged_last_witness :
    strTruthy rcC2.token = true ∧
    rcC2.custom_headers = some [(("Authorization"), "Basic forged")] ∧
    List.lookup ("Authorization") (buildRequestHeaders cfgC2 rcC2) =
      match lookupLast ("Authorization") [(("Authorization"), "Basic forged")] with
      | some v => some v
      | none => some ("Bearer " ++ optStr rcC2.token) :=
  ⟨rfl, rfl, custom_headers_merged_last cfgC2 rcC2 _ rfl rfl⟩

/-- C1 counterexample: the cache holds a fresh entry (fetched at t=1000, read
at t=1100, TTL 300) for the very region `list_metrics` is called on, yet the
call still issues one network request — the claim predicts zero. -/
theorem list_metrics_ignores_fresh_cache_cex :
    cacheFresh cacheC1 (cacheKeyOf cfgAtl (some ("atl"))) 1100 = true ∧
    (list_metrics cfgAtl cacheC1 none 0 none (some ("atl")) outC1).2.2.length = 1 :=
  ⟨rfl, rfl⟩

/-- C1 amended: `list_metrics` obtains the metric-name list by calling the
request client directly (server.py line 598), not through `get_cached_metrics`:
the metrics cache is neither read nor written, and every call whose region
resolves to a config with a non-empty URL issues exactly one fetch, regardless
of how fresh the cache is. -/
theorem list_metrics_bypasses_cache (cfg : PrometheusConfig) (cache : CacheMap)
    (limit : Option Int) (offset : Int) (filter_pattern : Option String)
    (region : Option String) (outcome : TransportOutcome)
    (rn : String) (rc : RegionConfig)
    (hres : get_region_config cfg region = .ok (rn, rc))
    (hurl : ¬(rc.url = "")) :
    (list_metrics cfg cache limit offset filter_pattern region outcome).2.1 = cache ∧
    (list_metrics cfg cache limit offset filter_pattern region outcome).2.2 =
      [mkIssuedRequest cfg rc ("label/__name__/values") []] := by
  refine ⟨rfl, ?_⟩
  show issuedRequests cfg ("label/__name__/values") [] region = _
  unfold issuedRequests
  rw [hres]
  have hb : (rc.url == "") = false := beq_eq_false_iff_ne.mpr hurl
  simp [hb]

/-- C1 witness: the amended statement evaluated on the fresh-cache fixture. -/
theorem list_metrics_bypasses_cache_witness :
    get_region_config cfgAtl (some ("atl")) = .ok ("atl", rcAtl) ∧
    ¬(rcAtl.url = "") ∧
    ((list_metrics cfgAtl cacheC1 none 0 none (some ("atl")) outC1).2.1 = cacheC1 ∧
      (list_metrics cfgAtl cacheC1 none 0 none (some ("atl")) outC1).2.2 =
        [mkIssuedRequest cfgAtl rcAtl ("label/__name__/values") []]) :=
  ⟨rfl, by decide,
    list_metrics_bypasses_cache cfgAtl cacheC1 none 0 none (some ("atl")) outC1
      ("atl") rcAtl rfl (by decide)⟩

/-- C5: `get_cached_metrics` never raises (it is total: the refresh failure is
absorbed by the catch-all at server.py line 411).  Whenever the refresh
attempt fails: if a (possibly expired) cache entry with non-null data exists
for the region, its data is returned; if no such entry exists, the empty
sequence is returned; and the cache is left unchanged, so a stale entry is
never discarded before a successful replacement exists. -/
theorem cached_metrics_degrades_on_failure (cfg : PrometheusConfig)
    (cache : CacheMap) (now : Nat) (region : Option String)
    (outcome : TransportOutcome) (e : PyExc)
    (hfail : make_prometheus_request cfg ("label/__name__/values") [] region
      outcome = .error e) :
    (get_cached_metrics cfg cache now region outcome).2.1 = cache ∧
    (∀ en, List.lookup (cacheKeyOf cfg region) cache = some en →
      en.data.isNull = false →
      (get_cached_metrics cfg cache now region outcome).1 = en.data) ∧
    (List.lookup (cacheKeyOf cfg region) cache = none →
      (get_cached_metrics cfg cache now region outcome).1 = JsonVal.arr []) ∧
    (∀ en, List.lookup (cacheKeyOf cfg region) cache = some en →
      en.data.isNull = true →
      (get_cached_metrics cfg cache now region outcome).1 = JsonVal.arr []) := by
  unfold get_cached_metrics
  by_cases hf : cacheFresh cache (cacheKeyOf cfg region) now = true
  · rw [if_pos hf]
    refine ⟨rfl, ?_, ?_, ?_⟩
    · intro en h hn
      show cacheDataOf cache (cacheKeyOf cfg region) = en.data
      unfold cacheDataOf
      rw [h]
    · intro h
      unfold cacheFresh at hf
      rw [h] at hf
      simp at hf
    · intro en h hn
      unfold cacheFresh at hf
      rw [h] at hf
      simp [hn] at hf
  · rw [if_neg hf, hfail]
    refine ⟨rfl, ?_, ?_, ?_⟩
    · intro en h hn
      show staleFallback cache (cacheKeyOf cfg region) = en.data
      simp [staleFallback, h, hn]
    · intro h
      show staleFallback cache (cacheKeyOf cfg region) = JsonVal.arr []
      simp [staleFallback, h]
    · intro en h hn
      show staleFallback cache (cacheKeyOf cfg region) = JsonVal.arr []
      simp [staleFallback, h, hn]

/-- C5 witness: at t=1000 the `atl` entry fetched at t=0 is expired; the
network fails; the expired data is served and the cache is untouched. -/
theorem cached_metrics_degrades_on_failure_witness :
    make_prometheus_request cfgAtl ("label/__name__/values") [] (some ("atl"))
        (TransportOutcome.netFail ("boom")) =
      .error (.connectionError ("boom")) ∧
    ((get_cached_metrics cfgAtl cacheC5 1000 (some ("atl"))
        (TransportOutcome.netFail ("boom"))).2.1 = cacheC5 ∧
    (∀ en, List.lookup (cacheKeyOf cfgAtl (some ("atl"))) cacheC5 = some en →
      en.data.isNull = false →
      (get_cached_metrics cfgAtl cacheC5 1000 (some ("atl"))
        (TransportOutcome.netFail ("boom"))).1 = en.data) ∧
    (List.lookup (cacheKeyOf cfgAtl (some ("atl"))) cacheC5 = none →
      (get_cached_metrics cfgAtl cacheC5 1000 (some ("atl"))
        (TransportOutcome.netFail ("boom"))).1 = JsonVal.arr []) ∧
    (∀ en, List.lookup (cacheKeyOf cfgAtl (some ("atl"))) cacheC5 = some en →
      en.data.isNull = true →
      (get_cached_metrics cfgAtl cacheC5 1000 (some ("atl"))
        (TransportOutcome.netFail ("boom"))).1 = JsonVal.arr [])) :=
  ⟨rfl, cached_metrics_degrades_on_failure cfgAtl cacheC5 1000 (some ("atl"))
    (TransportOutcome.netFail ("boom")) (.connectionError ("boom")) rfl⟩

/-- C6: `health_check` is total (never propagates a raw exception — every
failure is folded into the payload).  With no region it probes every
configured region, each per-region entry keyed by region name and depending
only on the probe outcome of that region (so one failure cannot abort the
others); the overall status is `"degraded"` iff at least one probe fails and
`"healthy"` otherwise; and an unknown explicitly-requested region yields
status `"unhealthy"` carrying the resolution error message. -/
theorem health_check_structural (cfg : PrometheusConfig) (now : Nat)
    (outcomes : String → TransportOutcome) :
    ((health_check cfg now none outcomes).regions =
      some (cfg.regions.map (fun p => (p.1, probeEntryOf cfg now outcomes p)))) ∧
    ((health_check cfg now none outcomes).status =
      if cfg.regions.all (fun p => probeOk cfg now outcomes p) then ("healthy")
      else ("degraded")) ∧
    ((health_check cfg now none outcomes).status = "degraded" ↔
      ∃ q ∈ cfg.regions, probeOk cfg now outcomes q = false) ∧
    (∀ r e, ¬(r = "") → get_region_config cfg (some r) = .error e →
      health_check cfg now (some r) outcomes =
        { status := "unhealthy", error := some (excMsg e) }) := by
  have hnone : health_check cfg now none outcomes =
      { status :=
          if cfg.regions.all (fun p => probeOk cfg now outcomes p) then ("healthy")
          else ("degraded")
        regions :=
          some (cfg.regions.map (fun p => (p.1, probeEntryOf cfg now outcomes p))) } := by
    unfold health_check
    rw [if_neg (show ¬(regionTruthy none = true) from by decide)]
    rw [healthLoop_eq]
  refine ⟨by rw [hnone], by rw [hnone], ?_, ?_⟩
  · rw [hnone]
    show (if cfg.regions.all (fun p => probeOk cfg now outcomes p) then ("healthy")
      else ("degraded")) = "degraded" ↔ _
    by_cases hall : cfg.regions.all (fun p => probeOk cfg now outcomes p) = true
    · rw [if_pos hall]
      constructor
      · intro h
        exact absurd h (by decide)
      · rintro ⟨q, hq, hfalse⟩
        have htrue := List.all_eq_true.mp hall q hq
        rw [hfalse] at htrue
        exact absurd htrue (by decide)
    · rw [if_neg hall]
      constructor
      · intro _
        have hne : ¬ ∀ q ∈ cfg.regions, probeOk cfg now outcomes q = true :=
          fun hforall => hall (List.all_eq_true.mpr hforall)
        push_neg at hne
        obtain ⟨q, hq, hqne⟩ := hne
        exact ⟨q, hq, by simpa using hqne⟩
      · intro _
        rfl
  · intro r e hr hres
    unfold health_check
    rw [if_pos (show regionTruthy (some r) = true from by simp [regionTruthy, hr])]
    rw [hres]

/-- C6 witness: requesting the unconfigured region `nope` yields the
`"unhealthy"` payload carrying the resolution error message. -/
theorem health_check_structural_witness :
    ¬(("nope" : String) = "") ∧
    get_region_config cfgC6 (some ("nope")) =
      .error (.unknownRegion ("nope") ["atl", "bad"]) ∧
    health_check cfgC6 7 (some ("nope")) outcomesC6 =
      { status := "unhealthy"
        error := some (excMsg (.unknownRegion ("nope") ["atl", "bad"])) } :=
  ⟨by decide, rfl,
    (health_check_structural cfgC6 7 outcomesC6).2.2.2 ("nope")
      (.unknownRegion ("nope") ["atl", "bad"]) (by decide) rfl⟩

theorem length_pySlice_nonneg {α : Type} (xs : List α) (a b : Int)
    (ha : 0 ≤ a) (hb : 0 ≤ b) :
    (pySlice xs a b).length = min b.toNat xs.length - min a.toNat xs.length := by
  unfold pySlice pySliceIdx
  rw [if_neg (Int.not_lt.mpr ha), if_neg (Int.not_lt.mpr hb)]
  rw [List.length_take, List.length_drop]
  omega

/-- C4: for every metric list, filter, non-negative offset `O` and
non-negative limit `L` (defaulting to the remaining length when absent),
`list_metrics` returns `returned_count = min(L, max(0, filteredCount - O))`,
`total_count` equal to the post-filter pre-pagination count, and
`has_more = (O + returned_count < filteredCount)`. -/
theorem list_metrics_pagination (cfg : PrometheusConfig) (cache : CacheMap)
    (names : List String) (filter_pattern : Option String) (offset : Int)
    (limit : Option Int) (region : Option String) (outcome : TransportOutcome)
    (hok : make_prometheus_request cfg ("label/__name__/values") [] region
      outcome = .ok (strArr names))
    (hoff : 0 ≤ offset)
    (hlim : ∀ l, limit = some l → 0 ≤ l) :
    Except.map lmStats
        (list_metrics cfg cache limit offset filter_pattern region outcome).1 =
      .ok
        ((specReturnedCount ((pyFilterMetrics filter_pattern names).length : Int)
            offset limit).toNat,
          (pyFilterMetrics filter_pattern names).length,
          specHasMore ((pyFilterMetrics filter_pattern names).length : Int)
            offset limit) := by
  cases limit with
  | none =>
    simp only [list_metrics, hok, asStrList_strArr, Except.map, lmStats]
    simp only [Except.ok.injEq, Prod.mk.injEq]
    refine ⟨?_, trivial, ?_⟩
    · rw [length_pySlice_nonneg _ _ _ hoff (Int.natCast_nonneg _)]
      simp only [specReturnedCount, Option.getD_none]
      omega
    · simp only [specHasMore, specReturnedCount, Option.getD_none]
      rw [decide_eq_decide]
      omega
  | some l =>
    have hl : 0 ≤ l := hlim l rfl
    simp only [list_metrics, hok, asStrList_strArr, Except.map, lmStats]
    simp only [Except.ok.injEq, Prod.mk.injEq]
    refine ⟨?_, trivial, ?_⟩
    · rw [length_pySlice_nonneg _ _ _ hoff (by omega)]
      simp only [specReturnedCount, Option.getD_some]
      omega
    · simp only [specHasMore, specReturnedCount, Option.getD_some]
      rw [decide_eq_decide]
      omega

/-- C4 witness: three metrics, no filter, offset 1, limit 5 (the theorem
instantiated at a concrete call). -/
theorem list_metrics_pagination_witness :
    make_prometheus_request cfgAtl ("label/__name__/values") [] (some ("atl"))
        (successOutcome (strArr ["up", "node_load1", "process_cpu"])) =
      .ok (strArr ["up", "node_load1", "process_cpu"]) ∧
    (0 : Int) ≤ 1 ∧
    Except.map lmStats
        (list_metrics cfgAtl cacheC1 (some 5) 1 none (some ("atl"))
          (successOutcome (strArr ["up", "node_load1", "process_cpu"]))).1 =
      .ok
        ((specReturnedCount
            ((pyFilterMetrics none ["up", "node_load1", "process_cpu"]).length : Int)
            1 (some 5)).toNat,
          (pyFilterMetrics none ["up", "node_load1", "process_cpu"]).length,
          specHasMore
            ((pyFilterMetrics none ["up", "node_load1", "process_cpu"]).length : Int)
            1 (some 5)) :=
  ⟨rfl, by decide,
    list_metrics_pagination cfgAtl cacheC1 ["up", "node_load1", "process_cpu"]
      none 1 (some 5) (some ("atl"))
      (successOutcome (strArr ["up", "node_load1", "process_cpu"])) rfl
      (by decide) (fun l hl => by cases hl; decide)⟩
